import Mathlib

set_option maxHeartbeats 1000000
set_option maxRecDepth 4000

/-!
Verification development for the lesgo crypto tier-rotation system.

The development shallowly embeds the two core subsystems:

* `backtest_engine.py` (`BacktestEngine`): embedded over `ℚ` (Python floats
  modelled as exact rationals), `datetime` modelled as `ℤ`, status strings kept
  verbatim.  All definitions are computable so concrete runs evaluate by
  `decide`.

* `rotation_detector.py` (`RotationDetector`): embedded over `ℝ` because the
  source passes values through `np.log10`, `scipy.stats.zscore` (a square
  root) and Pearson correlation.  Float `NaN` is modelled as `Option ℝ`
  (`none` = NaN): NaN-producing operations return `none`, arithmetic
  propagates `none`, and every float comparison against `none` is `False`,
  matching IEEE comparison semantics on NaN.
-/

/-! ## Backtest engine (`backtest_engine.py`), embedded over `ℚ` -/

/-- The `Trade` dataclass of `backtest_engine.py`.  `datetime` fields are
integers, float fields rationals, and the status string is kept verbatim
("open", "closed" or "stopped"). -/
structure Trade where
  entry_time : ℤ
  exit_time : Option ℤ
  coin_id : String
  tier : Fin 4
  entry_price : ℚ
  exit_price : Option ℚ
  position_size : ℚ
  stop_loss : ℚ
  take_profit : ℚ
  signal_confidence : ℚ
  status : String
  pnl : Option ℚ
deriving DecidableEq

/-- One row of the per-tier parameter table `TIER_PARAMS` of `settings.py`. -/
structure TierParams where
  position_size_adjustment : ℚ
  stop_loss_multiplier : ℚ
  take_profit_multiplier : ℚ
  confidence_adjustment : ℚ

/-- `TIER_PARAMS` from `settings.py`: the dict comprehension
`{tier: {... 1.0 - tier*0.15, 0.05*(tier+1), 0.15*(tier+1), 1.0 + tier*0.05}}`
for `tier in range(4)` (the default `MAX_TIERS`). -/
def TIER_PARAMS (tier : Fin 4) : TierParams :=
  { position_size_adjustment := 1 - ((tier : ℕ) : ℚ) * 0.15
    stop_loss_multiplier := 0.05 * (((tier : ℕ) : ℚ) + 1)
    take_profit_multiplier := 0.15 * (((tier : ℕ) : ℚ) + 1)
    confidence_adjustment := 1 + ((tier : ℕ) : ℚ) * 0.05 }

/-- A market-snapshot row as consumed by `run_backtest`: the engine reads the
columns `timestamp`, `coin_id`, `tier`, `close`, `market_cap` and
`price_change_percentage_24h` of its `historical_data` table. -/
structure MRow where
  timestamp : ℤ
  coin_id : String
  tier : Fin 4
  close : ℚ
  market_cap : ℚ
  price_change_percentage_24h : ℚ
deriving DecidableEq

/-- The `metrics` dict carried by a `RotationSignal`
(keys `volume_factor`, `correlation`, `relative_strength`). -/
structure SignalMetrics (α : Type) where
  volume_factor : α
  correlation : α
  relative_strength : α
deriving DecidableEq

/-- The `RotationSignal` dataclass of `rotation_detector.py`, parametric in the
numeric type so the detector (over `ℝ`) and the engine (over `ℚ`) can share
it just as the Python modules share the dataclass. -/
structure RotationSignal (α : Type) where
  timestamp : ℤ
  from_tier : Fin 4
  to_tier : Fin 4
  confidence : α
  signal_type : String
  metrics : SignalMetrics α
deriving DecidableEq

/-- The mutable state of a `BacktestEngine` instance: `current_capital`,
`positions` (open trades) and `closed_trades`. -/
structure BState where
  current_capital : ℚ
  positions : List Trade
  closed_trades : List Trade
deriving DecidableEq

/-- The confidence clamp `min(max(signal_confidence, 0.3), 1.0)` of
`calculate_position_size`. -/
def confidenceClamp (c : ℚ) : ℚ := min (max c 0.3) 1.0

/-- `BacktestEngine.calculate_position_size`:
`current_capital * max_position_size * tier_adjustment * confidence_adjustment`. -/
def calculate_position_size (current_capital max_position_size : ℚ)
    (tier : Fin 4) (signal_confidence : ℚ) : ℚ :=
  current_capital * max_position_size *
    (TIER_PARAMS tier).position_size_adjustment * confidenceClamp signal_confidence

/-- The volatility clamp `min(max(volatility, 0.02), 0.15)` of
`calculate_risk_levels`. -/
def volatilityClamp (v : ℚ) : ℚ := min (max v 0.02) 0.15

/-- `BacktestEngine.calculate_risk_levels`: returns `(stop_loss, take_profit)`. -/
def calculate_risk_levels (tier : Fin 4) (entry_price volatility : ℚ) : ℚ × ℚ :=
  let va := volatilityClamp volatility
  (entry_price * (1 - (TIER_PARAMS tier).stop_loss_multiplier * va),
   entry_price * (1 + (TIER_PARAMS tier).take_profit_multiplier * va))

/-- `BacktestEngine.enter_position`.  The Python method mutates `self`; the
embedding threads the state explicitly and returns the `Optional[Trade]`
together with the state after the call.  The early `return None` branch
performs no mutation, so the state is returned unchanged there. -/
def enter_position (max_position_size : ℚ) (s : BState) (timestamp : ℤ)
    (coin_id : String) (tier : Fin 4)
    (entry_price volatility signal_confidence : ℚ) : Option Trade × BState :=
  let position_size :=
    calculate_position_size s.current_capital max_position_size tier signal_confidence
  let rl := calculate_risk_levels tier entry_price volatility
  if position_size > s.current_capital then (none, s)
  else
    let t : Trade :=
      { entry_time := timestamp, exit_time := none, coin_id := coin_id, tier := tier
        entry_price := entry_price, exit_price := none, position_size := position_size
        stop_loss := rl.1, take_profit := rl.2, signal_confidence := signal_confidence
        status := "open", pnl := none }
    (some t,
     { s with positions := s.positions ++ [t]
              current_capital := s.current_capital - position_size })

/-- `BacktestEngine.calculate_pnl`: `(exit_price - entry_price) / entry_price`,
`0.0` when there is no exit price yet. -/
def calculate_pnl (t : Trade) : ℚ :=
  match t.exit_price with
  | none => 0
  | some p => (p - t.entry_price) / t.entry_price

/-- The in-place exit mutation of `update_positions`: set exit price, exit
time and terminal status, then `pnl = calculate_pnl(trade)`. -/
def closeTrade (t : Trade) (price : ℚ) (timestamp : ℤ) (st : String) : Trade :=
  let t1 := { t with exit_price := some price, exit_time := some timestamp, status := st }
  { t1 with pnl := some (calculate_pnl t1) }

/-- The price lookup `market_data[market_data['coin_id'] == trade.coin_id]['close'].iloc[0]`
of `update_positions`.  `iloc[0]` on an empty selection raises `IndexError`,
modelled as `none`. -/
def lookupPrice (md : List MRow) (cid : String) : Option ℚ :=
  ((md.filter fun r => r.coin_id = cid).head?).map fun r => r.close

/-- One iteration of the `for trade in self.positions` loop of
`update_positions`: skip non-open trades, look the price up (propagating the
`IndexError` as `none`), check the stop-loss first and the take-profit second.
The boolean records whether the trade was appended to `closed_positions`. -/
def stepTrade (md : List MRow) (timestamp : ℤ) (t : Trade) : Option (Trade × Bool) :=
  if t.status ≠ "open" then some (t, false)
  else
    match lookupPrice md t.coin_id with
    | none => none
    | some p =>
      if p ≤ t.stop_loss then some (closeTrade t p timestamp "stopped", true)
      else if p ≥ t.take_profit then some (closeTrade t p timestamp "closed", true)
      else some (t, false)

/-- Fail-fast traversal of a list under an `Option`-valued function (the
behaviour of a Python loop whose body may raise). -/
def optMap {α β : Type} (f : α → Option β) : List α → Option (List β)
  | [] => some []
  | x :: xs =>
    match f x, optMap f xs with
    | some y, some ys => some (y :: ys)
    | _, _ => none

/-- `BacktestEngine.update_positions`: scan the open positions, close the
eligible ones, move them to `closed_trades` and credit
`position_size * (1 + pnl)` to the capital.  Returns the new state and the
list of trades closed by this call; `none` models the `IndexError` raised
when a trade's coin is absent from `market_data`. -/
def update_positions (s : BState) (timestamp : ℤ) (md : List MRow) :
    Option (BState × List Trade) :=
  (optMap (stepTrade md timestamp) s.positions).map fun res =>
    let closed := (res.filter fun r => r.2).map fun r => r.1
    let remaining := (res.filter fun r => !r.2).map fun r => r.1
    ({ current_capital := s.current_capital +
         (closed.map fun t => t.position_size * (1 + t.pnl.getD 0)).sum
       positions := remaining
       closed_trades := s.closed_trades ++ closed }, closed)

/-- Stable insertion of `x` into `l` before the first element `y` with
`le x y`. -/
def insertBy {α : Type} (le : α → α → Bool) (x : α) : List α → List α
  | [] => [x]
  | y :: ys => if le x y then x :: y :: ys else y :: insertBy le x ys

/-- Stable insertion sort, used to model the sorting steps of the source
(`sort_values`, `sorted`). -/
def isortBy {α : Type} (le : α → α → Bool) : List α → List α
  | [] => []
  | x :: xs => insertBy le x (isortBy le xs)

/-- `BacktestEngine.run_backtest`.  State is reset, data and signals are
sorted by timestamp, then for each distinct timestamp in ascending order the
engine updates positions and processes the signals whose timestamp equals the
step's; finally `update_positions` is called once more on `iloc[-1:]` — the
last ROW of the sorted table only.  Returns the final engine state (the
Python dict returns `metrics`, `trades = closed_trades` and
`final_capital = current_capital`, all projections of this state).  `none`
models an uncaught exception (empty input, or a price lookup `IndexError`). -/
def run_backtest (initial_capital max_position_size : ℚ) (historical_data : List MRow)
    (signals : List (RotationSignal ℚ)) : Option BState :=
  let s0 : BState := { current_capital := initial_capital, positions := [], closed_trades := [] }
  let hist := isortBy (fun a b => decide (a.timestamp ≤ b.timestamp)) historical_data
  let sigs := isortBy (fun a b => decide (a.timestamp ≤ b.timestamp)) signals
  let tss := (hist.map fun r => r.timestamp).dedup
  (tss.foldlM (fun st ts =>
    (update_positions st ts (hist.filter fun r => r.timestamp = ts)).map fun ur =>
      let current_signals := sigs.filter fun sg => sg.timestamp = ts
      current_signals.foldl (fun st2 sg =>
        let target_coins := isortBy (fun a b => decide (b.market_cap < a.market_cap))
          ((hist.filter fun r => r.timestamp = ts).filter fun r => r.tier = sg.to_tier)
        match target_coins.head? with
        | none => st2
        | some coin_data =>
          if st2.current_capital > 0 then
            (enter_position max_position_size st2 ts coin_data.coin_id sg.to_tier
              coin_data.close (coin_data.price_change_percentage_24h / 100)
              sg.confidence).2
          else st2) ur.1) s0).bind fun st =>
    match hist.getLast? with
    | none => none
    | some lastRow => (update_positions st lastRow.timestamp [lastRow]).map fun ur => ur.1

/-! ### Concrete engine inputs used by the claim theorems -/

/-- A single coin "a" at timestamp 0: close 100, tier 0, 24h change 2 %. -/
def rowC2a : MRow :=
  { timestamp := 0, coin_id := "a", tier := 0, close := 100, market_cap := 1
    price_change_percentage_24h := 2 }

/-- The same coin one step later, price unchanged at 100. -/
def rowC2b : MRow := { rowC2a with timestamp := 1 }

/-- A signal at timestamp 0 into tier 0 with confidence 0.9. -/
def sigC2 : RotationSignal ℚ :=
  { timestamp := 0, from_tier := 1, to_tier := 0, confidence := 0.9
    signal_type := "tier_rotation"
    metrics := { volume_factor := 0, correlation := 0, relative_strength := 0 } }

/-- The trade `run_backtest` opens in the C2 scenario: size
`100000 * 0.1 * 1.0 * 0.9 = 9000`, stop `100 * (1 - 0.05 * 0.02) = 99.9`,
target `100 * (1 + 0.15 * 0.02) = 100.3`. -/
def tradeC2 : Trade :=
  { entry_time := 0, exit_time := none, coin_id := "a", tier := 0
    entry_price := 100, exit_price := none, position_size := 9000
    stop_loss := 99.9, take_profit := 100.3, signal_confidence := 0.9
    status := "open", pnl := none }

/-- A trade whose stop-loss price lies above its take-profit price, so that a
single bar can satisfy both exit criteria (the `Trade` dataclass places no
constraint ruling this out). -/
def tradeC8 : Trade :=
  { entry_time := 0, exit_time := none, coin_id := "a", tier := 0
    entry_price := 8, exit_price := none, position_size := 10
    stop_loss := 10, take_profit := 5, signal_confidence := 0.9
    status := "open", pnl := none }

/-- A bar for coin "a" at price 7: at or below `tradeC8`'s stop-loss 10 and at
or above its take-profit 5. -/
def rowC8 : MRow :=
  { timestamp := 1, coin_id := "a", tier := 0, close := 7, market_cap := 1
    price_change_percentage_24h := 0 }

/-- An engine state with capital 100 used to exercise the rejection branch. -/
def stateC7 : BState := { current_capital := 100, positions := [], closed_trades := [] }

/-! ## Rotation detector (`rotation_detector.py`), embedded over `ℝ`

Float values are real numbers; a possibly-NaN float is an `Option ℝ` with
`none` for NaN.  The definitions are noncomputable because the source feeds
values through `np.log10`, `scipy.stats.zscore` and Pearson correlation. -/

noncomputable section

/-- A market-data row as consumed by `RotationDetector`: the detector reads
`timestamp`, `market_cap`, `total_volume` and `price_change_percentage_24h`. -/
structure DRow where
  timestamp : ℤ
  market_cap : ℝ
  total_volume : ℝ
  price_change_percentage_24h : ℝ

/-- The `k/4`-quantile (`k = 0..4`) of the sorted list `s` of length `n`,
with NumPy's linear interpolation: position `p = (k/4) * (n-1)`, value
`v[⌊p⌋] + (v[⌊p⌋+1] - v[⌊p⌋]) * frac(p)`. -/
def qEdge (s : List ℝ) (n k : ℕ) : ℝ :=
  let t := k * (n - 1)
  let lo := s.getD (t / 4) 0
  let hi := s.getD (min (t / 4 + 1) (n - 1)) 0
  lo + (hi - lo) * (((t % 4 : ℕ) : ℝ) / 4)

/-- Interval bin assignment of `pd.cut` for the four right-closed quartile
intervals (the lowest edge is widened to include the minimum). -/
def binOf (e1 e2 e3 v : ℝ) : Fin 4 :=
  if v ≤ e1 then 0 else if v ≤ e2 then 1 else if v ≤ e3 then 2 else 3

/-- `pd.qcut(values, q=4, labels=[0, 1, 2, 3])`: compute the quartile edges of
the sorted values by linear interpolation, fail (`ValueError`, modelled as
`none`) when the edges are not pairwise distinct, and otherwise label each
value, in input order, with the index of its quartile interval.  Label 0 goes
to the LOWEST quartile and label 3 to the highest, because `labels` are
assigned to the intervals in increasing order. -/
def qcut4 (l : List ℝ) : Option (List (Fin 4)) :=
  let n := l.length
  let s := isortBy (fun a b => decide (a ≤ b)) l
  let es := [qEdge s n 0, qEdge s n 1, qEdge s n 2, qEdge s n 3, qEdge s n 4]
  if es.Nodup then
    some (l.map fun v => binOf (qEdge s n 1) (qEdge s n 2) (qEdge s n 3) v)
  else none

/-- The per-timestamp series `np.log10(market_cap)` handed to `pd.qcut` by
`identify_tiers` for the group of rows carrying timestamp `ts`. -/
def logCaps (rows : List DRow) (ts : ℤ) : List ℝ :=
  (rows.filter fun r => r.timestamp = ts).map fun r => Real.logb 10 r.market_cap

/-- The position of row number `i` inside its own timestamp group (groupby
preserves the original row order inside each group). -/
def countPrior (rows : List DRow) (i : ℕ) (ts : ℤ) : ℕ :=
  ((rows.take i).filter fun r => r.timestamp = ts).length

/-- `RotationDetector.identify_tiers`: reject an empty table (`ValueError`),
then assign `df.groupby('timestamp')['market_cap'].transform(qcut ∘ log10)`
row by row; a `qcut` failure inside any group propagates as `none`. -/
def identify_tiers (rows : List DRow) : Option (List (DRow × Fin 4)) :=
  if rows.isEmpty then none
  else
    optMap (fun p => (qcut4 (logCaps rows p.2.timestamp)).bind fun ls =>
      (ls.get? (countPrior rows p.1 p.2.timestamp)).map fun t => (p.2, t)) rows.enum

/-- Mean of a list of reals (`np.mean` / `Series.mean` on non-empty input). -/
def meanL (l : List ℝ) : ℝ := l.sum / (l.length : ℝ)

/-- `Series.mean`: NaN on an empty series, otherwise the mean. -/
def meanOE (l : List ℝ) : Option ℝ := if l.isEmpty then none else some (meanL l)

/-- Population variance (`ddof=0`), as used by `scipy.stats.zscore`. -/
def var0 (l : List ℝ) : ℝ := ((l.map fun v => (v - meanL l) ^ 2).sum) / (l.length : ℝ)

/-- Population standard deviation (`ddof=0`). -/
def std0 (l : List ℝ) : ℝ := Real.sqrt (var0 l)

/-- Sample variance (`ddof=1`), as used by `Series.std` and `Series.corr`. -/
def varS (l : List ℝ) : ℝ := ((l.map fun v => (v - meanL l) ^ 2).sum) / ((l.length : ℝ) - 1)

/-- `Series.std()`: NaN for fewer than two observations (`0/0` at `ddof=1`). -/
def stdS (l : List ℝ) : Option ℝ := if l.length < 2 then none else some (Real.sqrt (varS l))

/-- Float division producing NaN on a zero denominator.  In every use below
the numerator is zero whenever the denominator is (z-scores of a constant
series), so `none` is exactly IEEE `0/0 = NaN`. -/
def divNaN (a b : ℝ) : Option ℝ := if b = 0 then none else some (a / b)

/-- `np.mean` over possibly-NaN floats: NaN if any entry is NaN or the list
is empty. -/
def meanO (l : List (Option ℝ)) : Option ℝ :=
  (optMap id l).bind fun vs => if vs.isEmpty then none else some (meanL vs)

/-- The body of `detect_volume_anomalies` for one tier's volume series:
`float(np.mean(stats.zscore(volumes)))` when the tier is non-empty, `0.0`
otherwise.  A constant series has `std = 0`, so each z-score is NaN. -/
def anomalyOf (l : List ℝ) : Option ℝ :=
  if l.isEmpty then some 0
  else meanO (l.map fun v => divNaN (v - meanL l) (std0 l))

/-- The metrics dict of `calculate_tier_metrics` for one tier. -/
structure TierMetrics where
  avg_volume : Option ℝ
  avg_mcap : Option ℝ
  volatility : Option ℝ
  volume_mcap_ratio : Option ℝ
  assets_count : ℕ

/-- The rows of the tiered table carrying tier `t`
(`tiered_data[tiered_data['tier'] == tier]`). -/
def tierRows (td : List (DRow × Fin 4)) (t : Fin 4) : List (DRow × Fin 4) :=
  td.filter fun p => p.2 = t

/-- `RotationDetector.calculate_tier_metrics`, entry for tier `t`: means and
std over the tier's rows of the whole tiered table (all timestamps pooled). -/
def calculate_tier_metrics (td : List (DRow × Fin 4)) (t : Fin 4) : TierMetrics :=
  let rows := tierRows td t
  { avg_volume := meanOE (rows.map fun p => p.1.total_volume)
    avg_mcap := meanOE (rows.map fun p => p.1.market_cap)
    volatility := stdS (rows.map fun p => p.1.price_change_percentage_24h)
    volume_mcap_ratio := meanOE (rows.map fun p => p.1.total_volume / p.1.market_cap)
    assets_count := rows.length }

/-- `RotationDetector.detect_volume_anomalies`, entry for tier `t`. -/
def detect_volume_anomalies (td : List (DRow × Fin 4)) (t : Fin 4) : Option ℝ :=
  anomalyOf ((tierRows td t).map fun p => p.1.total_volume)

/-- A tier's `price_change_percentage_24h` series together with the pandas
row labels (positions in the tiered table) the slice retains. -/
def seriesIdx (td : List (DRow × Fin 4)) (t : Fin 4) : List (ℕ × ℝ) :=
  (td.enum.filter fun p => p.2.2 = t).map fun p => (p.1, p.2.1.price_change_percentage_24h)

/-- Label lookup in an indexed series. -/
def lookupIdx (i : ℕ) : List (ℕ × ℝ) → Option ℝ
  | [] => none
  | (k, v) :: rest => if k = i then some v else lookupIdx i rest

/-- The inner alignment `self.align(other, join='inner')` performed by
`Series.corr`: value pairs at labels present in both series. -/
def innerJoin (s1 s2 : List (ℕ × ℝ)) : List (ℝ × ℝ) :=
  s1.filterMap fun p => (lookupIdx p.1 s2).map fun y => (p.2, y)

/-- Sample covariance of a list of pairs (`ddof=1`). -/
def covS (xy : List (ℝ × ℝ)) : ℝ :=
  ((xy.map fun p => (p.1 - meanL (xy.map fun q => q.1)) *
    (p.2 - meanL (xy.map fun q => q.2))).sum) / ((xy.length : ℝ) - 1)

/-- `Series.corr` (Pearson): align the two series on their index labels with
an inner join, return NaN when fewer than two pairs remain or either aligned
column has zero variance, else `cov / (std_x * std_y)`. -/
def corrAligned (s1 s2 : List (ℕ × ℝ)) : Option ℝ :=
  let j := innerJoin s1 s2
  if j.length < 2 then none
  else
    let xs := j.map fun p => p.1
    let ys := j.map fun p => p.2
    if varS xs = 0 ∨ varS ys = 0 then none
    else some (covS j / (Real.sqrt (varS xs) * Real.sqrt (varS ys)))

/-- One cell computation of `calculate_tier_correlations`: only attempted
when both tier series are non-empty
(`if not tier1_returns.empty and not tier2_returns.empty`), both series
truncated to the shorter length first; `none` is a NaN result (no write). -/
def corrPair (td : List (DRow × Fin 4)) (t1 t2 : Fin 4) : Option ℝ :=
  let s1 := seriesIdx td t1
  let s2 := seriesIdx td t2
  if s1.isEmpty ∨ s2.isEmpty then none
  else
    let m := min s1.length s2.length
    corrAligned (s1.take m) (s2.take m)

/-- The 12 ordered pairs of distinct tiers in the iteration order of the
source's nested `for tier1 / for tier2` loops. -/
def pairsAll : List (Fin 4 × Fin 4) :=
  (List.finRange 4).flatMap fun a =>
    (List.finRange 4).filterMap fun b => if a = b then none else some (a, b)

/-- The symmetric double write
`correlations.loc[t1, t2] = c; correlations.loc[t2, t1] = c`. -/
def writePair (m : Fin 4 → Fin 4 → Option ℝ) (i j : Fin 4) (c : ℝ) :
    Fin 4 → Fin 4 → Option ℝ :=
  fun a b => if (a = i ∧ b = j) ∨ (a = j ∧ b = i) then some c else m a b

/-- `RotationDetector.calculate_tier_correlations`: a 4×4 float DataFrame
initialised to 1.0 everywhere; for each ordered pair of distinct tiers the
correlation is computed and, when it is not NaN (`pd.notna`), written
symmetrically into both cells. -/
def calculate_tier_correlations (td : List (DRow × Fin 4)) : Fin 4 → Fin 4 → Option ℝ :=
  pairsAll.foldl (fun m p =>
    match corrPair td p.1 p.2 with
    | some c => writePair m p.1 p.2 c
    | none => m) (fun _ _ => some 1)

/-- The `relative_strength` factor of `generate_rotation_signals`: guarded
division of the destination tier's average volume/market-cap ratio by the
source tier's; `0` unless the source ratio compares strictly greater than
zero (a NaN source ratio fails that comparison, as in Python). -/
def relStrengthOf (td : List (DRow × Fin 4)) (ft tt : Fin 4) : Option ℝ :=
  match (calculate_tier_metrics td ft).volume_mcap_ratio with
  | none => some 0
  | some fr =>
    if 0 < fr then
      match (calculate_tier_metrics td tt).volume_mcap_ratio with
      | some tr => some (tr / fr)
      | none => none
    else some 0

/-- The `volume_factor`: destination anomaly score minus source anomaly
score, NaN-propagating. -/
def vfOf (td : List (DRow × Fin 4)) (ft tt : Fin 4) : Option ℝ :=
  match detect_volume_anomalies td tt, detect_volume_anomalies td ft with
  | some a, some b => some (a - b)
  | _, _ => none

/-- The blended confidence `np.mean([volume_factor, correlation_factor,
relative_strength])`: NaN if any factor is NaN. -/
def confOf (td : List (DRow × Fin 4)) (ft tt : Fin 4) : Option ℝ :=
  match vfOf td ft tt, calculate_tier_correlations td ft tt, relStrengthOf td ft tt with
  | some v, some c, some r => some ((v + c + r) / 3)
  | _, _, _ => none

/-- The signal emission step for one ordered tier pair: emit exactly when the
confidence strictly exceeds `min_confidence` (a NaN confidence fails the
comparison).  The emitted signal is stamped `datetime.now()` — the `now`
parameter — NOT any timestamp of the input table. -/
def emitAt (td : List (DRow × Fin 4)) (now : ℤ) (minConf : ℝ) (ft tt : Fin 4) :
    Option (RotationSignal ℝ) :=
  match vfOf td ft tt, calculate_tier_correlations td ft tt, relStrengthOf td ft tt with
  | some v, some c, some r =>
    if minConf < (v + c + r) / 3 then
      some { timestamp := now, from_tier := ft, to_tier := tt
             confidence := (v + c + r) / 3, signal_type := "tier_rotation"
             metrics := { volume_factor := v, correlation := c, relative_strength := r } }
    else none
  | _, _, _ => none

/-- `RotationDetector.generate_rotation_signals`: tier the table (propagating
its `ValueError`s), compute the pooled metrics, anomaly scores and
correlation matrix once, then scan the 12 ordered tier pairs in loop order
and collect the emitted signals. -/
def generate_rotation_signals (data : List DRow) (now : ℤ) (minConf : ℝ) :
    Option (List (RotationSignal ℝ)) :=
  (identify_tiers data).map fun td =>
    pairsAll.filterMap fun p => emitAt td now minConf p.1 p.2

/-- `ANALYSIS_PARAMS['min_confidence']` default from `settings.py`. -/
def min_confidence_default : ℝ := 0.6

/-- NaN-propagating float division as an `Option` combinator (used to state
claim C6). -/
def optDiv (a b : Option ℝ) : Option ℝ :=
  match a, b with
  | some x, some y => some (x / y)
  | _, _ => none

/-! ### Concrete detector inputs used by the claim theorems -/

/-- Four assets at one timestamp with market caps 1, 10, 100, 1000. -/
def D4 : List DRow := [⟨0, 1, 1, 1⟩, ⟨0, 10, 1, 1⟩, ⟨0, 100, 1, 1⟩, ⟨0, 1000, 1, 1⟩]

/-- The tiering the source computes on `D4`: `qcut` labels ascend with
log-market-cap, so the lowest cap gets tier 0 and the highest tier 3. -/
def TD4 : List (DRow × Fin 4) :=
  [(⟨0, 1, 1, 1⟩, 0), (⟨0, 10, 1, 1⟩, 1), (⟨0, 100, 1, 1⟩, 2), (⟨0, 1000, 1, 1⟩, 3)]

/-- Eight assets at timestamp 0, two per quartile: caps `10^k`, volumes
`10^k / 5` (so every volume/market-cap ratio is 0.2 and the two volumes
inside each tier differ). -/
def D8 : List DRow :=
  [⟨0, 1, 0.2, 1⟩, ⟨0, 10, 2, 1⟩, ⟨0, 100, 20, 1⟩, ⟨0, 1000, 200, 1⟩,
   ⟨0, 10000, 2000, 1⟩, ⟨0, 100000, 20000, 1⟩,
   ⟨0, 1000000, 200000, 1⟩, ⟨0, 10000000, 2000000, 1⟩]

/-- The tiering the source computes on `D8`. -/
def TD8 : List (DRow × Fin 4) :=
  [(⟨0, 1, 0.2, 1⟩, 0), (⟨0, 10, 2, 1⟩, 0), (⟨0, 100, 20, 1⟩, 1), (⟨0, 1000, 200, 1⟩, 1),
   (⟨0, 10000, 2000, 1⟩, 2), (⟨0, 100000, 20000, 1⟩, 2),
   (⟨0, 1000000, 200000, 1⟩, 3), (⟨0, 10000000, 2000000, 1⟩, 3)]

/-- The signal emitted for each ordered tier pair on `TD8` with
`now = 999`: `volume_factor = 0`, `correlation = 1`, `relative_strength = 1`,
confidence `2/3`. -/
def sig8 (ft tt : Fin 4) : RotationSignal ℝ :=
  { timestamp := 999, from_tier := ft, to_tier := tt, confidence := 2 / 3
    signal_type := "tier_rotation"
    metrics := { volume_factor := 0, correlation := 1, relative_strength := 1 } }

/-- A one-row tiered table whose only asset carries tier 1, leaving tier 0
empty (so tier 0's volume/market-cap ratio is NaN). -/
def tdC6 : List (DRow × Fin 4) := [(⟨0, 1, 1, 1⟩, 1)]

end

/-! ## Claim theorems for the backtest engine -/

/-- Claim C2.  The claim states that after `run_backtest`'s loop every
still-open trade is force-closed against the final snapshot's prices, so no
trade remains open.  The code instead merely calls `update_positions` on the
final row, which only closes a trade whose price breaches its stop or target:
on a two-bar run where the price stays strictly between the two levels the
opened trade survives the whole backtest with status "open" and no exit
price.  This contradicts the claim and the source's own comment
("Close any remaining positions at the last price"). -/
theorem claim_C2 :
    run_backtest 100000 0.1 [rowC2a, rowC2b] [sigC2] =
      some { current_capital := 91000, positions := [tradeC2], closed_trades := [] } ∧
    tradeC2.status = "open" ∧ tradeC2.exit_price = none := by
  refine ⟨?_, rfl, rfl⟩
  norm_num [run_backtest, isortBy, insertBy, update_positions, optMap, stepTrade, lookupPrice,
    enter_position, calculate_position_size, calculate_risk_levels, TIER_PARAMS,
    confidenceClamp, volatilityClamp, calculate_pnl, closeTrade, rowC2a, rowC2b, sigC2, tradeC2,
    List.filter, List.foldlM, List.foldl, List.dedup_cons_of_not_mem, min_def, max_def]

/-- Claim C7.  `enter_position` rejects — returning no trade and the state
unchanged — exactly when the computed position size exceeds the current
capital; on success it debits the capital by exactly the position size and
appends one trade with status "open".  In the §8 scenario (capital 100000,
max fraction 0.1, tier 0, confidence 0.9) the computed size is 9000, and any
entry attempted while the remaining capital is below the freshly computed
size fails with no state change. -/
theorem claim_C7 :
    (∀ (mps : ℚ) (s : BState) (ts : ℤ) (cid : String) (tier : Fin 4) (pr vol conf : ℚ),
      calculate_position_size s.current_capital mps tier conf > s.current_capital →
        enter_position mps s ts cid tier pr vol conf = (none, s)) ∧
    (∀ (mps : ℚ) (s : BState) (ts : ℤ) (cid : String) (tier : Fin 4) (pr vol conf : ℚ),
      ¬ calculate_position_size s.current_capital mps tier conf > s.current_capital →
        ∃ t : Trade,
          enter_position mps s ts cid tier pr vol conf =
            (some t, { current_capital := s.current_capital - t.position_size
                       positions := s.positions ++ [t]
                       closed_trades := s.closed_trades }) ∧
          t.status = "open" ∧
          t.position_size = calculate_position_size s.current_capital mps tier conf) ∧
    calculate_position_size 100000 0.1 0 0.9 = 9000 ∧
    (∀ (s : BState) (ts : ℤ) (cid : String) (pr vol : ℚ),
      s.current_capital < calculate_position_size s.current_capital 0.1 0 0.9 →
        enter_position 0.1 s ts cid 0 pr vol 0.9 = (none, s)) := by
  refine ⟨?_, ?_,
    by norm_num [calculate_position_size, TIER_PARAMS, confidenceClamp, min_def, max_def], ?_⟩
  · intro mps s ts cid tier pr vol conf h
    simp only [enter_position, if_pos h]
  · intro mps s ts cid tier pr vol conf h
    refine ⟨{ entry_time := ts, exit_time := none, coin_id := cid, tier := tier
              entry_price := pr, exit_price := none
              position_size := calculate_position_size s.current_capital mps tier conf
              stop_loss := (calculate_risk_levels tier pr vol).1
              take_profit := (calculate_risk_levels tier pr vol).2
              signal_confidence := conf, status := "open", pnl := none }, ?_, rfl, rfl⟩
    simp only [enter_position, if_neg h]
  · intro s ts cid pr vol h
    have h' : calculate_position_size s.current_capital 0.1 0 0.9 > s.current_capital := h
    simp only [enter_position, if_pos h']

/-- Witness for C7: rejection at capital 100 with max fraction 2 (computed
size `100 * 2 * 1.0 * 0.9 = 180 > 100`), plus the §8 size computation. -/
theorem claim_C7_witness :
    enter_position 2 stateC7 0 "a" 0 5 1 0.9 = (none, stateC7) ∧
    calculate_position_size 100000 0.1 0 0.9 = 9000 :=
  ⟨claim_C7.1 2 stateC7 0 "a" 0 5 1 0.9
    (by norm_num [calculate_position_size, TIER_PARAMS, confidenceClamp, stateC7,
      min_def, max_def]),
   claim_C7.2.2.1⟩

/-- Claim C8.  In `update_positions`, a bar price satisfying both exit
criteria at once (price at or below the stop-loss and at or above the
take-profit) closes the trade through the stop branch: the stop-loss check is
written first, so the trade exits with terminal status "stopped". -/
theorem claim_C8 :
    ∀ (md : List MRow) (ts : ℤ) (t : Trade) (p : ℚ),
      t.status = "open" → lookupPrice md t.coin_id = some p →
      p ≤ t.stop_loss → t.take_profit ≤ p →
      stepTrade md ts t = some (closeTrade t p ts "stopped", true) := by
  intro md ts t p hst hlk hsl htp
  simp [stepTrade, hst, hlk, hsl]

/-- Witness for C8: at price 7, `tradeC8` (stop 10, target 5) satisfies both
criteria and exits as "stopped". -/
theorem claim_C8_witness :
    stepTrade [rowC8] 1 tradeC8 = some (closeTrade tradeC8 7 1 "stopped", true) :=
  claim_C8 [rowC8] 1 tradeC8 7 rfl
    (by norm_num [lookupPrice, List.filter, rowC8, tradeC8])
    (by norm_num [tradeC8]) (by norm_num [tradeC8])

/-- The tier position-size adjustment `1.0 - tier * 0.15` is strictly positive
and at most 1 for all four tiers. -/
theorem tier_adjustment_bounds (tier : Fin 4) :
    0 < (TIER_PARAMS tier).position_size_adjustment ∧
      (TIER_PARAMS tier).position_size_adjustment ≤ 1 := by
  fin_cases tier <;> constructor <;> norm_num [TIER_PARAMS]

/-- The clamped confidence `min(max(c, 0.3), 1.0)` lies in `(0, 1]`. -/
theorem confidenceClamp_bounds (c : ℚ) :
    0 < confidenceClamp c ∧ confidenceClamp c ≤ 1 := by
  unfold confidenceClamp
  constructor
  · have h3 : (0.3 : ℚ) ≤ max c 0.3 := le_max_right _ _
    exact lt_min (by linarith) (by norm_num)
  · have h4 := min_le_right (max c (0.3 : ℚ)) (1.0 : ℚ)
    linarith

/-- Claim C10.  Whenever `max_position_size ≤ 1` and the current capital is
non-negative (the tier adjustment and the clamped confidence are at most 1 by
construction, as with every default configuration value), the computed
position size is at most the current capital, hence `enter_position`'s
capacity-rejection branch cannot fire and the capital stays non-negative
after the call. -/
theorem claim_C10 :
    ∀ (mps : ℚ) (s : BState) (ts : ℤ) (cid : String) (tier : Fin 4) (pr vol conf : ℚ),
      mps ≤ 1 → 0 ≤ s.current_capital →
      calculate_position_size s.current_capital mps tier conf ≤ s.current_capital ∧
      (enter_position mps s ts cid tier pr vol conf).1.isSome = true ∧
      0 ≤ (enter_position mps s ts cid tier pr vol conf).2.current_capital := by
  intro mps s ts cid tier pr vol conf hmps hcap
  obtain ⟨hadj0, hadj1⟩ := tier_adjustment_bounds tier
  obtain ⟨hcl0, hcl1⟩ := confidenceClamp_bounds conf
  have hsize : calculate_position_size s.current_capital mps tier conf ≤ s.current_capital := by
    unfold calculate_position_size
    rcases le_or_lt mps 0 with hneg | hpos
    · have : s.current_capital * mps * (TIER_PARAMS tier).position_size_adjustment *
          confidenceClamp conf ≤ 0 := by
        have h1 : s.current_capital * mps ≤ 0 := mul_nonpos_of_nonneg_of_nonpos hcap hneg
        have h2 : s.current_capital * mps * (TIER_PARAMS tier).position_size_adjustment ≤ 0 :=
          mul_nonpos_of_nonpos_of_nonneg h1 (le_of_lt hadj0)
        exact mul_nonpos_of_nonpos_of_nonneg h2 (le_of_lt hcl0)
      linarith
    · have hfac : mps * (TIER_PARAMS tier).position_size_adjustment * confidenceClamp conf ≤ 1 :=
        mul_le_one₀ (mul_le_one₀ hmps hadj0.le hadj1) hcl0.le hcl1
      have hfac0 : 0 ≤ mps * (TIER_PARAMS tier).position_size_adjustment *
          confidenceClamp conf := by positivity
      calc s.current_capital * mps * (TIER_PARAMS tier).position_size_adjustment *
            confidenceClamp conf
          = s.current_capital *
            (mps * (TIER_PARAMS tier).position_size_adjustment * confidenceClamp conf) := by ring
        _ ≤ s.current_capital * 1 := by
            exact mul_le_mul_of_nonneg_left hfac hcap
        _ = s.current_capital := by ring
  have hnot : ¬ calculate_position_size s.current_capital mps tier conf > s.current_capital :=
    not_lt.mpr hsize
  refine ⟨hsize, ?_, ?_⟩
  · simp only [enter_position, if_neg hnot, Option.isSome_some]
  · simp only [enter_position, if_neg hnot]
    simpa using sub_nonneg.mpr hsize

/-- Witness for C10 at the default configuration: capital 100000, max fraction
0.1, tier 0, confidence 0.9. -/
theorem claim_C10_witness :
    calculate_position_size 100000 0.1 0 0.9 ≤ (100000 : ℚ) ∧
    (enter_position 0.1 { current_capital := 100000, positions := [], closed_trades := [] }
      0 "a" 0 100 0.02 0.9).1.isSome = true ∧
    0 ≤ (enter_position 0.1 { current_capital := 100000, positions := [], closed_trades := [] }
      0 "a" 0 100 0.02 0.9).2.current_capital :=
  claim_C10 0.1 { current_capital := 100000, positions := [], closed_trades := [] }
    0 "a" 0 100 0.02 0.9 (by norm_num) (by norm_num)

/-! ## Helper lemmas for the rotation detector -/

/-- Base-10 logarithm of a power of ten. -/
theorem logb_ten_pow (k : ℕ) : Real.logb 10 ((10 : ℝ) ^ k) = k := by
  rw [Real.logb, Real.log_pow]
  have h : Real.log 10 ≠ 0 := by
    have := Real.log_pos (by norm_num : (1 : ℝ) < 10)
    linarith
  field_simp

/-- Evaluation of `pd.qcut(·, 4, labels=[0,1,2,3])` on four equally spaced
values: edges `0, 0.75, 1.5, 2.25, 3`, labels ascend with the value. -/
theorem qcut4_eval4 : qcut4 [(0 : ℝ), 1, 2, 3] = some [0, 1, 2, 3] := by
  norm_num [qcut4, isortBy, insertBy, qEdge, binOf, decide_eq_true_eq,
    List.getD_cons_zero, List.getD_cons_succ, List.nodup_cons, List.mem_cons]

/-- Evaluation of `pd.qcut(·, 4, labels=[0,1,2,3])` on eight equally spaced
values: edges `0, 1.75, 3.5, 5.25, 7`, two values per quartile. -/
theorem qcut4_eval8 :
    qcut4 [(0 : ℝ), 1, 2, 3, 4, 5, 6, 7] = some [0, 0, 1, 1, 2, 2, 3, 3] := by
  norm_num [qcut4, isortBy, insertBy, qEdge, binOf, decide_eq_true_eq,
    List.getD_cons_zero, List.getD_cons_succ, List.nodup_cons, List.mem_cons]

/-- The log-cap series of `D4`. -/
theorem logCaps_D4 : logCaps D4 0 = [0, 1, 2, 3] := by
  have h1 : Real.logb 10 (1 : ℝ) = 0 := Real.logb_one
  have h10 : Real.logb 10 (10 : ℝ) = 1 := by norm_num
  have h100 : Real.logb 10 (100 : ℝ) = 2 := by
    have := logb_ten_pow 2
    norm_num at this
    exact this
  have h1000 : Real.logb 10 (1000 : ℝ) = 3 := by
    have := logb_ten_pow 3
    norm_num at this
    exact this
  simp [logCaps, D4, List.filter, h1, h10, h100, h1000]

/-- The log-cap series of `D8`. -/
theorem logCaps_D8 : logCaps D8 0 = [0, 1, 2, 3, 4, 5, 6, 7] := by
  have h0 : Real.logb 10 (1 : ℝ) = 0 := Real.logb_one
  have h1 : Real.logb 10 (10 : ℝ) = 1 := by norm_num
  have h2 : Real.logb 10 (100 : ℝ) = 2 := by
    have := logb_ten_pow 2; norm_num at this; exact this
  have h3 : Real.logb 10 (1000 : ℝ) = 3 := by
    have := logb_ten_pow 3; norm_num at this; exact this
  have h4 : Real.logb 10 (10000 : ℝ) = 4 := by
    have := logb_ten_pow 4; norm_num at this; exact this
  have h5 : Real.logb 10 (100000 : ℝ) = 5 := by
    have := logb_ten_pow 5; norm_num at this; exact this
  have h6 : Real.logb 10 (1000000 : ℝ) = 6 := by
    have := logb_ten_pow 6; norm_num at this; exact this
  have h7 : Real.logb 10 (10000000 : ℝ) = 7 := by
    have := logb_ten_pow 7; norm_num at this; exact this
  simp [logCaps, D8, List.filter, h0, h1, h2, h3, h4, h5, h6, h7]

/-- `qcut` output for the `D4` timestamp group. -/
theorem qcutCaps_D4 : qcut4 (logCaps D4 0) = some [0, 1, 2, 3] := by
  rw [logCaps_D4, qcut4_eval4]

/-- `qcut` output for the `D8` timestamp group. -/
theorem qcutCaps_D8 : qcut4 (logCaps D8 0) = some [0, 0, 1, 1, 2, 2, 3, 3] := by
  rw [logCaps_D8, qcut4_eval8]

/-- `identify_tiers` on `D4` assigns tiers 0, 1, 2, 3 in order of ascending
market cap. -/
theorem identify_D4 : identify_tiers D4 = some TD4 := by
  have hq : qcut4 (logCaps [⟨0, 1, 1, 1⟩, ⟨0, 10, 1, 1⟩, ⟨0, 100, 1, 1⟩,
      (⟨0, 1000, 1, 1⟩ : DRow)] 0) = some [0, 1, 2, 3] := qcutCaps_D4
  norm_num [identify_tiers, optMap, countPrior, hq, List.enum, List.enumFrom,
    List.filter, List.take, D4, TD4]

/-- `identify_tiers` on `D8` assigns tiers 0, 0, 1, 1, 2, 2, 3, 3 in order of
ascending market cap. -/
theorem identify_D8 : identify_tiers D8 = some TD8 := by
  have hq : qcut4 (logCaps [⟨0, 1, 0.2, 1⟩, ⟨0, 10, 2, 1⟩, ⟨0, 100, 20, 1⟩,
      ⟨0, 1000, 200, 1⟩, ⟨0, 10000, 2000, 1⟩, ⟨0, 100000, 20000, 1⟩,
      ⟨0, 1000000, 200000, 1⟩, (⟨0, 10000000, 2000000, 1⟩ : DRow)] 0) =
      some [0, 0, 1, 1, 2, 2, 3, 3] := qcutCaps_D8
  norm_num at hq
  norm_num [identify_tiers, optMap, countPrior, hq, List.enum, List.enumFrom,
    List.filter, List.take, D8, TD8]

/-- Claim C1 (code bug).  The claim (and spec §4.1/§8, and the repo's own test
`test_identify_tiers`, which asserts the highest-market-cap row gets tier 0)
says the lowest log-cap quartile maps to tier 3 and the highest to tier 0.
The code calls `pd.qcut(np.log10(x), q=4, labels=[0,1,2,3])`, and `qcut`
assigns its labels to the quartile intervals in ASCENDING order, so the
lowest-cap quartile gets tier 0 and the highest-cap quartile gets tier 3.
On four assets with market caps 1, 10, 100, 1000 at one timestamp the
computed tier list is `[0, 1, 2, 3]`: the highest-cap asset receives tier 3,
not tier 0. -/
theorem claim_C1 :
    (identify_tiers D4).map (fun td => td.map fun p => p.2) = some [0, 1, 2, 3] ∧
    D4.map (fun r => r.market_cap) = [1, 10, 100, 1000] := by
  constructor
  · rw [identify_D4]
    rfl
  · rfl

/-! ## Correlation matrix lemmas -/

/-- A member of a tier's indexed return series points back at a row of the
tiered table carrying that tier. -/
theorem mem_seriesIdx {td : List (DRow × Fin 4)} {t : Fin 4} {i : ℕ} {x : ℝ}
    (h : (i, x) ∈ seriesIdx td t) : ∃ p : DRow × Fin 4, td[i]? = some p ∧ p.2 = t := by
  unfold seriesIdx at h
  obtain ⟨q, hq, hfq⟩ := List.mem_map.mp h
  obtain ⟨hqe, hqt⟩ := List.mem_filter.mp hq
  have hget : td[q.1]? = some q.2 := List.mem_enum_iff_getElem?.mp hqe
  have hq1 : q.1 = i := congrArg Prod.fst hfq
  exact ⟨q.2, hq1 ▸ hget, of_decide_eq_true hqt⟩

/-- A successful label lookup exhibits a member with that label. -/
theorem lookupIdx_some {i : ℕ} {y : ℝ} :
    ∀ {s : List (ℕ × ℝ)}, lookupIdx i s = some y → ∃ v, (i, v) ∈ s := by
  intro s
  induction s with
  | nil => intro h; exact absurd h (by simp [lookupIdx])
  | cons p rest ih =>
    intro h
    obtain ⟨k, v⟩ := p
    rw [lookupIdx] at h
    by_cases hk : k = i
    · exact ⟨v, by simp [hk]⟩
    · rw [if_neg hk] at h
      obtain ⟨w, hw⟩ := ih h
      exact ⟨w, List.mem_cons_of_mem _ hw⟩

/-- Two distinct tiers occupy disjoint row labels of the tiered table, so the
inner alignment of their (truncated) return series is empty. -/
theorem innerJoin_seriesIdx_nil (td : List (DRow × Fin 4)) (t1 t2 : Fin 4)
    (hne : t1 ≠ t2) (l1 l2 : ℕ) :
    innerJoin ((seriesIdx td t1).take l1) ((seriesIdx td t2).take l2) = [] := by
  unfold innerJoin
  rw [List.filterMap_eq_nil_iff]
  rintro ⟨i, x⟩ hp
  have hp1 : (i, x) ∈ seriesIdx td t1 := List.take_subset _ _ hp
  cases hl : lookupIdx i ((seriesIdx td t2).take l2) with
  | none => rfl
  | some y =>
    exfalso
    obtain ⟨v, hv⟩ := lookupIdx_some hl
    have hv2 : (i, v) ∈ seriesIdx td t2 := List.take_subset _ _ hv
    obtain ⟨q1, he1, hq1⟩ := mem_seriesIdx hp1
    obtain ⟨q2, he2, hq2⟩ := mem_seriesIdx hv2
    rw [he1] at he2
    exact hne (hq1 ▸ hq2 ▸ congrArg (fun o => o.2) (Option.some.inj he2) ▸ rfl)

/-- For distinct tiers the computed cell is always NaN: `Series.corr` aligns
the two series on their row labels, the labels are disjoint, and fewer than
two aligned pairs remain. -/
theorem corrPair_eq_none (td : List (DRow × Fin 4)) (t1 t2 : Fin 4) (hne : t1 ≠ t2) :
    corrPair td t1 t2 = none := by
  simp only [corrPair]
  split_ifs with h
  · rfl
  · have hjoin := innerJoin_seriesIdx_nil td t1 t2 hne
      (min (seriesIdx td t1).length (seriesIdx td t2).length)
      (min (seriesIdx td t1).length (seriesIdx td t2).length)
    simp [corrAligned, hjoin]

/-- A correlation fold over pairs whose cells all compute to NaN never writes. -/
theorem foldl_corr_skip (td : List (DRow × Fin 4)) :
    ∀ (l : List (Fin 4 × Fin 4)) (m : Fin 4 → Fin 4 → Option ℝ),
      (∀ p ∈ l, corrPair td p.1 p.2 = none) →
      l.foldl (fun m p =>
        match corrPair td p.1 p.2 with
        | some c => writePair m p.1 p.2 c
        | none => m) m = m := by
  intro l
  induction l with
  | nil => intro m _; rfl
  | cons x xs ih =>
    intro m h
    rw [List.foldl_cons]
    have hx := h x (List.mem_cons_self x xs)
    simp only [hx]
    exact ih m (fun p hp => h p (List.mem_cons_of_mem x hp))

/-- Every pair evaluated by the correlation loop has distinct components. -/
theorem pairsAll_ne : ∀ p ∈ pairsAll, p.1 ≠ p.2 := by decide

/-- Every ordered pair of distinct tiers is evaluated. -/
theorem mem_pairsAll : ∀ a b : Fin 4, a ≠ b → (a, b) ∈ pairsAll := by decide

/-- The returned correlation matrix is always the initial all-ones matrix:
because `Series.corr` aligns on disjoint row labels, every off-diagonal
computation yields NaN and no cell is ever overwritten. -/
theorem correlations_const (td : List (DRow × Fin 4)) :
    calculate_tier_correlations td = fun _ _ => some 1 := by
  unfold calculate_tier_correlations
  exact foldl_corr_skip td pairsAll _
    (fun p hp => corrPair_eq_none td p.1 p.2 (pairsAll_ne p hp))

/-- Claim C5.  For every tiered input table the 4×4 matrix returned by
`calculate_tier_correlations` is symmetric, has every diagonal entry exactly
1.0, and contains no NaN cell (every cell is a defined float). -/
theorem claim_C5 :
    (∀ (td : List (DRow × Fin 4)) (i j : Fin 4),
      calculate_tier_correlations td i j = calculate_tier_correlations td j i) ∧
    (∀ (td : List (DRow × Fin 4)) (i : Fin 4),
      calculate_tier_correlations td i i = some 1) ∧
    (∀ (td : List (DRow × Fin 4)) (i j : Fin 4),
      (calculate_tier_correlations td i j).isSome = true) := by
  refine ⟨fun td i j => ?_, fun td i => ?_, fun td i j => ?_⟩ <;>
    simp [correlations_const]

/-- Claim C9.  Every off-diagonal cell of the returned matrix equals the
computed correlation when that computation is defined and keeps the
initialisation value 1.0 when it is NaN — and by `corrPair_eq_none` the NaN
case is in fact the only one that occurs. -/
theorem claim_C9 :
    ∀ (td : List (DRow × Fin 4)) (i j : Fin 4), i ≠ j →
      calculate_tier_correlations td i j = some ((corrPair td i j).getD 1) := by
  intro td i j hne
  simp [correlations_const td, corrPair_eq_none td i j hne]

/-- Witness for C9 on the concrete table `tdC6` (tier 0 empty). -/
theorem claim_C9_witness :
    calculate_tier_correlations tdC6 0 1 = some ((corrPair tdC6 0 1).getD 1) :=
  claim_C9 tdC6 0 1 (by decide)

/-! ## Relative-strength lemmas (claim C6) -/

/-- The mean of a list of non-negative reals is non-negative. -/
theorem meanL_nonneg {l : List ℝ} (h : ∀ x ∈ l, 0 ≤ x) : 0 ≤ meanL l :=
  div_nonneg (List.sum_nonneg h) (by positivity)

/-- A defined `Series.mean` is the mean of the values. -/
theorem meanOE_some {l : List ℝ} {x : ℝ} (h : meanOE l = some x) : x = meanL l := by
  unfold meanOE at h
  by_cases he : l.isEmpty
  · rw [if_pos he] at h
    exact absurd h (by simp)
  · rw [if_neg he] at h
    exact (Option.some.inj h).symm

/-- Claim C6.  On a tiered table with positive market caps and non-negative
volumes (the documented input domain), `relative_strength` is 0 whenever the
source tier's average volume/market-cap ratio is NaN (for example, an empty
tier) or zero, and otherwise equals the destination tier's ratio divided by
the source tier's.  The embedding is a total function: no division error can
be raised. -/
theorem claim_C6 :
    ∀ (td : List (DRow × Fin 4)) (ft tt : Fin 4),
      (∀ p ∈ td, 0 < p.1.market_cap ∧ 0 ≤ p.1.total_volume) →
      (((calculate_tier_metrics td ft).volume_mcap_ratio = none ∨
        (calculate_tier_metrics td ft).volume_mcap_ratio = some 0) →
        relStrengthOf td ft tt = some 0) ∧
      (∀ x, (calculate_tier_metrics td ft).volume_mcap_ratio = some x → x ≠ 0 →
        relStrengthOf td ft tt =
          optDiv (calculate_tier_metrics td tt).volume_mcap_ratio
            (calculate_tier_metrics td ft).volume_mcap_ratio) := by
  intro td ft tt hvalid
  constructor
  · rintro (h | h) <;> simp only [relStrengthOf, h]
    norm_num
  · intro x hx hxne
    have hx0 : 0 ≤ x := by
      have hx' := hx
      simp only [calculate_tier_metrics] at hx'
      rw [meanOE_some hx']
      apply meanL_nonneg
      intro y hy
      obtain ⟨p, hp, hpy⟩ := List.mem_map.mp hy
      have hptd : p ∈ td := List.mem_of_mem_filter hp
      obtain ⟨hm, hv⟩ := hvalid p hptd
      rw [← hpy]
      exact div_nonneg hv hm.le
    have hxpos : 0 < x := lt_of_le_of_ne hx0 (Ne.symm hxne)
    simp only [relStrengthOf, hx, if_pos hxpos, optDiv]
    cases (calculate_tier_metrics td tt).volume_mcap_ratio <;> rfl

/-- Witness for C6: on `tdC6` the source tier 0 is empty, its ratio is NaN,
and `relative_strength` is 0. -/
theorem claim_C6_witness : relStrengthOf tdC6 0 1 = some 0 :=
  (claim_C6 tdC6 0 1 (by norm_num [tdC6])).1
    (Or.inl (by norm_num [calculate_tier_metrics, tierRows, meanOE, tdC6, List.filter]))

/-! ## Volume-anomaly and signal-emission lemmas -/

/-- Population variance of a two-element list. -/
theorem var0_pair (a b : ℝ) : var0 [a, b] = (a - b) ^ 2 / 4 := by
  simp [var0, meanL]
  ring

/-- The mean z-score of a two-element series with distinct values is 0 (the
standard deviation is non-zero, and z-scores always average to 0 when they
are defined). -/
theorem anomalyOf_pair {a b : ℝ} (h : a ≠ b) : anomalyOf [a, b] = some 0 := by
  have hvar : 0 < var0 [a, b] := by
    rw [var0_pair]
    exact div_pos (pow_two_pos_of_ne_zero (sub_ne_zero.mpr h)) (by norm_num)
  have hstd : std0 [a, b] ≠ 0 := ne_of_gt (Real.sqrt_pos.mpr hvar)
  unfold anomalyOf
  rw [if_neg (by simp)]
  simp only [List.map_cons, List.map_nil, divNaN, if_neg hstd]
  simp only [meanO, optMap, id]
  norm_num [meanL]
  exact ⟨by simp, by ring⟩

/-- The tier-0 rows of `TD8`. -/
theorem tierRows_TD8_0 : tierRows TD8 0 = [(⟨0, 1, 0.2, 1⟩, 0), (⟨0, 10, 2, 1⟩, 0)] := rfl

/-- The tier-1 rows of `TD8`. -/
theorem tierRows_TD8_1 : tierRows TD8 1 = [(⟨0, 100, 20, 1⟩, 1), (⟨0, 1000, 200, 1⟩, 1)] := rfl

/-- The tier-2 rows of `TD8`. -/
theorem tierRows_TD8_2 :
    tierRows TD8 2 = [(⟨0, 10000, 2000, 1⟩, 2), (⟨0, 100000, 20000, 1⟩, 2)] := rfl

/-- The tier-3 rows of `TD8`. -/
theorem tierRows_TD8_3 :
    tierRows TD8 3 = [(⟨0, 1000000, 200000, 1⟩, 3), (⟨0, 10000000, 2000000, 1⟩, 3)] := rfl

/-- Every tier's average volume/market-cap ratio on `TD8` is `1/5`. -/
theorem ratio_TD8 : ∀ t : Fin 4, (calculate_tier_metrics TD8 t).volume_mcap_ratio =
    some (1 / 5) := by
  intro t
  fin_cases t
  · show (calculate_tier_metrics TD8 0).volume_mcap_ratio = some (1 / 5)
    norm_num [calculate_tier_metrics, tierRows_TD8_0, meanOE, meanL]
  · show (calculate_tier_metrics TD8 1).volume_mcap_ratio = some (1 / 5)
    norm_num [calculate_tier_metrics, tierRows_TD8_1, meanOE, meanL]
  · show (calculate_tier_metrics TD8 2).volume_mcap_ratio = some (1 / 5)
    norm_num [calculate_tier_metrics, tierRows_TD8_2, meanOE, meanL]
  · show (calculate_tier_metrics TD8 3).volume_mcap_ratio = some (1 / 5)
    norm_num [calculate_tier_metrics, tierRows_TD8_3, meanOE, meanL]

/-- Every tier's volume anomaly score on `TD8` is 0. -/
theorem anomaly_TD8 : ∀ t : Fin 4, detect_volume_anomalies TD8 t = some 0 := by
  intro t
  fin_cases t
  · show detect_volume_anomalies TD8 0 = some 0
    rw [detect_volume_anomalies, tierRows_TD8_0]
    exact anomalyOf_pair (by norm_num)
  · show detect_volume_anomalies TD8 1 = some 0
    rw [detect_volume_anomalies, tierRows_TD8_1]
    exact anomalyOf_pair (by norm_num)
  · show detect_volume_anomalies TD8 2 = some 0
    rw [detect_volume_anomalies, tierRows_TD8_2]
    exact anomalyOf_pair (by norm_num)
  · show detect_volume_anomalies TD8 3 = some 0
    rw [detect_volume_anomalies, tierRows_TD8_3]
    exact anomalyOf_pair (by norm_num)

/-- Every `volume_factor` on `TD8` is 0. -/
theorem vf_TD8 : ∀ ft tt : Fin 4, vfOf TD8 ft tt = some 0 := by
  intro ft tt
  simp [vfOf, anomaly_TD8]

/-- Every `relative_strength` on `TD8` is 1. -/
theorem rs_TD8 : ∀ ft tt : Fin 4, relStrengthOf TD8 ft tt = some 1 := by
  intro ft tt
  simp only [relStrengthOf, ratio_TD8]
  rw [if_pos (by norm_num : (0 : ℝ) < 1 / 5)]
  norm_num

/-- On `TD8` with threshold 0.6, every ordered tier pair emits the signal
`sig8` (confidence `(0 + 1 + 1) / 3 = 2/3 > 0.6`), stamped `now = 999`. -/
theorem emit_TD8 : ∀ ft tt : Fin 4, emitAt TD8 999 0.6 ft tt = some (sig8 ft tt) := by
  intro ft tt
  simp only [emitAt, vf_TD8, rs_TD8, correlations_const]
  rw [if_pos (by norm_num : (0.6 : ℝ) < (0 + 1 + 1) / 3)]
  norm_num [sig8]

/-- A `filterMap` whose function always succeeds is a `map`. -/
theorem filterMap_eq_map_of_some {α β : Type} (f : α → Option β) (g : α → β) :
    ∀ l : List α, (∀ x ∈ l, f x = some (g x)) → l.filterMap f = l.map g := by
  intro l
  induction l with
  | nil => intro _; rfl
  | cons x xs ih =>
    intro h
    simp [List.filterMap_cons, h x (List.mem_cons_self x xs),
      ih (fun y hy => h y (List.mem_cons_of_mem x hy))]

/-- Full evaluation of `generate_rotation_signals` on `D8`: all 12 ordered
tier pairs emit, each signal stamped with the wall-clock `now = 999`. -/
theorem gen_D8 :
    generate_rotation_signals D8 999 0.6 = some (pairsAll.map fun p => sig8 p.1 p.2) := by
  unfold generate_rotation_signals
  rw [identify_D8]
  simp only [Option.map_some']
  congr 1
  exact filterMap_eq_map_of_some _ _ pairsAll (fun p _ => emit_TD8 p.1 p.2)

/-- Characterisation of an emitted signal: it records the evaluated pair, its
confidence is the three-factor mean, it strictly exceeds the threshold, and
it agrees with `confOf`. -/
theorem emitAt_some_char {td : List (DRow × Fin 4)} {now : ℤ} {θ : ℝ} {ft tt : Fin 4}
    {s : RotationSignal ℝ} (h : emitAt td now θ ft tt = some s) :
    s.from_tier = ft ∧ s.to_tier = tt ∧
    s.confidence = (s.metrics.volume_factor + s.metrics.correlation +
      s.metrics.relative_strength) / 3 ∧
    θ < s.confidence ∧ confOf td ft tt = some s.confidence := by
  unfold emitAt at h
  cases hv : vfOf td ft tt with
  | none => rw [hv] at h; simp at h
  | some v =>
    rw [hv] at h
    cases hc : calculate_tier_correlations td ft tt with
    | none => rw [hc] at h; simp at h
    | some c =>
      rw [hc] at h
      cases hr : relStrengthOf td ft tt with
      | none => rw [hr] at h; simp at h
      | some r =>
        rw [hr] at h
        have h' : (if θ < (v + c + r) / 3 then
            some ({ timestamp := now, from_tier := ft, to_tier := tt
                    confidence := (v + c + r) / 3, signal_type := "tier_rotation"
                    metrics := { volume_factor := v, correlation := c
                                 relative_strength := r } } : RotationSignal ℝ)
            else none) = some s := h
        by_cases hθ : θ < (v + c + r) / 3
        · rw [if_pos hθ] at h'
          have hs := (Option.some.inj h').symm
          subst hs
          refine ⟨rfl, rfl, rfl, hθ, ?_⟩
          unfold confOf
          rw [hv, hc, hr]
        · rw [if_neg hθ] at h'
          exact absurd h' (by simp)

/-- A defined confidence above the threshold forces emission for that pair. -/
theorem emitAt_of_conf {td : List (DRow × Fin 4)} {θ c : ℝ} {ft tt : Fin 4}
    (now : ℤ) (h : confOf td ft tt = some c) (hθ : θ < c) :
    ∃ s : RotationSignal ℝ, emitAt td now θ ft tt = some s ∧
      s.from_tier = ft ∧ s.to_tier = tt := by
  unfold confOf at h
  cases hv : vfOf td ft tt with
  | none => rw [hv] at h; simp at h
  | some v =>
    rw [hv] at h
    cases hc : calculate_tier_correlations td ft tt with
    | none => rw [hc] at h; simp at h
    | some cc =>
      rw [hc] at h
      cases hr : relStrengthOf td ft tt with
      | none => rw [hr] at h; simp at h
      | some r =>
        rw [hr] at h
        have hmean : (v + cc + r) / 3 = c := Option.some.inj h
        refine ⟨{ timestamp := now, from_tier := ft, to_tier := tt
                  confidence := (v + cc + r) / 3, signal_type := "tier_rotation"
                  metrics := { volume_factor := v, correlation := cc
                               relative_strength := r } }, ?_, rfl, rfl⟩
        have hgoal : emitAt td now θ ft tt = (if θ < (v + cc + r) / 3 then
            some ({ timestamp := now, from_tier := ft, to_tier := tt
                    confidence := (v + cc + r) / 3, signal_type := "tier_rotation"
                    metrics := { volume_factor := v, correlation := cc
                                 relative_strength := r } } : RotationSignal ℝ)
            else none) := by
          unfold emitAt
          rw [hv, hc, hr]
        rw [hgoal, if_pos (by rw [hmean]; exact hθ)]

/-- Claim C3 (code bug).  The claim says signals carry the evaluation
timestamp (the data timestamp being scored) so they can be matched against
simulation-step timestamps, with the 12 ordered pairs evaluated per
timestamp of the input table.  The code instead stamps every signal with
`datetime.now()` (wall-clock time at generation, the parameter `now` of the
embedding) and evaluates the 12 pairs once over the whole table pooled
across timestamps.  On `D8`, whose rows all carry data timestamp 0, all 12
emitted signals carry timestamp 999 (`now`), so the filter
`s.timestamp == timestamp` in `run_backtest` can never match them. -/
theorem claim_C3 :
    (generate_rotation_signals D8 999 min_confidence_default).map
        (fun sigs => sigs.map fun s => s.timestamp) = some (List.replicate 12 999) ∧
    D8.map (fun r => r.timestamp) = List.replicate 8 0 := by
  constructor
  · have hgen : generate_rotation_signals D8 999 min_confidence_default =
        some (pairsAll.map fun p => sig8 p.1 p.2) := by
      unfold min_confidence_default
      exact gen_D8
    rw [hgen]
    rfl
  · rfl

/-- Claim C4.  Every emitted signal's confidence equals the arithmetic mean
of its `volume_factor`, `correlation` and `relative_strength` metrics and
strictly exceeds the configured minimum confidence (default 0.6:
`min_confidence_default`); and for each ordered pair of distinct tiers a
signal for that pair appears in the output exactly when the pair's blended
confidence is defined and strictly exceeds the minimum.  In particular no
signal with confidence at or below the minimum is ever returned. -/
theorem claim_C4 :
    ∀ (data : List DRow) (now : ℤ) (minConf : ℝ) (out : List (RotationSignal ℝ)),
      generate_rotation_signals data now minConf = some out →
      (∀ s ∈ out,
        s.confidence = (s.metrics.volume_factor + s.metrics.correlation +
          s.metrics.relative_strength) / 3 ∧ minConf < s.confidence) ∧
      (∀ td, identify_tiers data = some td → ∀ ft tt : Fin 4, ft ≠ tt →
        ((∃ s ∈ out, s.from_tier = ft ∧ s.to_tier = tt) ↔
          ∃ c, confOf td ft tt = some c ∧ minConf < c)) := by
  intro data now minConf out hgen
  unfold generate_rotation_signals at hgen
  cases hid : identify_tiers data with
  | none => rw [hid] at hgen; exact absurd hgen (by simp)
  | some td0 =>
    rw [hid] at hgen
    simp only [Option.map_some'] at hgen
    have hout : out = pairsAll.filterMap fun p => emitAt td0 now minConf p.1 p.2 :=
      (Option.some.inj hgen).symm
    constructor
    · intro s hs
      rw [hout] at hs
      obtain ⟨p, _, he⟩ := List.mem_filterMap.mp hs
      obtain ⟨_, _, hconf, hθ, _⟩ := emitAt_some_char he
      exact ⟨hconf, hθ⟩
    · intro td hid2 ft tt hne
      have htd : td = td0 := Option.some.inj hid2.symm
      subst htd
      constructor
      · rintro ⟨s, hs, hft, htt⟩
        rw [hout] at hs
        obtain ⟨p, _, he⟩ := List.mem_filterMap.mp hs
        obtain ⟨h1, h2, _, h4, h5⟩ := emitAt_some_char he
        refine ⟨s.confidence, ?_, h4⟩
        rw [← hft, ← htt, h1, h2]
        exact h5
      · rintro ⟨c, hc, hθc⟩
        obtain ⟨s, hes, hf, ht⟩ := emitAt_of_conf now hc hθc
        refine ⟨s, ?_, hf, ht⟩
        rw [hout]
        exact List.mem_filterMap.mpr ⟨(ft, tt), mem_pairsAll ft tt hne, hes⟩

/-- Witness for C4 at the concrete run `gen_D8` (threshold 0.6): the signal
emitted for the pair (0, 1) has confidence `2/3`, the mean of its metrics,
strictly above 0.6. -/
theorem claim_C4_witness :
    (sig8 0 1).confidence = ((sig8 0 1).metrics.volume_factor +
      (sig8 0 1).metrics.correlation + (sig8 0 1).metrics.relative_strength) / 3 ∧
    (0.6 : ℝ) < (sig8 0 1).confidence :=
  (claim_C4 D8 999 0.6 (pairsAll.map fun p => sig8 p.1 p.2) gen_D8).1 (sig8 0 1)
    (List.mem_map.mpr ⟨(0, 1), by decide, rfl⟩)
